import Mathlib

/-!
Shallow embedding of the voice-calendar agent repository: the calendar
operations of calendar_tools.py and the tool-dispatch loop of agent.py.
Instants are modelled as minutes on the proleptic Gregorian calendar
(the arithmetic Python datetime uses); the remote calendar provider is
modelled at its documented boundary (inclusive-lower / exclusive-upper
list window, ascending order by start time, id-keyed get/update/delete).
-/

namespace AgentCal

/-! ### strptime-style parsing of %Y-%m-%d and %H:%M

Python strptime compiles the format to a regex: %Y is exactly four
digits, %m matches 1[0-2]|0[1-9]|[1-9], %d matches 3[01]|[12]d|0[1-9]|[1-9],
%H matches 2[0-3]|[0-1]d|d, %M matches [0-5]d|d, a whitespace in the
format matches one or more whitespace characters, the whole input must
be consumed, and the datetime constructor then rejects day-of-month
overflow and year 0. -/

def dval (c : Char) : Nat := c.toNat - 48

/-- Four mandatory digits, as the %Y directive. -/
def digits4 : List Char → Option (Nat × List Char)
  | a :: b :: c :: d :: rest =>
    if a.isDigit && b.isDigit && c.isDigit && d.isDigit then
      some ((((dval a) * 10 + dval b) * 10 + dval c) * 10 + dval d, rest)
    else none
  | _ => none

/-- Two digits when they form a value accepted by the two-digit
alternatives of the directive, else one digit accepted by the one-digit
alternative: the deterministic reading of the strptime regexes, which
agrees with backtracking because every directive is followed by a
non-digit separator. -/
def num2or1 (valid2 valid1 : Nat → Bool) : List Char → Option (Nat × List Char)
  | a :: b :: rest =>
    if a.isDigit && b.isDigit && valid2 (dval a * 10 + dval b) then
      some (dval a * 10 + dval b, rest)
    else if a.isDigit && valid1 (dval a) then
      some (dval a, b :: rest)
    else none
  | [a] => if a.isDigit && valid1 (dval a) then some (dval a, []) else none
  | [] => none

def lit (c : Char) : List Char → Option (List Char)
  | x :: rest => if x = c then some rest else none
  | [] => none

/-- One or more whitespace characters, as a whitespace in a strptime format. -/
def ws0 : List Char → List Char
  | x :: rest => if x.isWhitespace then ws0 rest else x :: rest
  | [] => []

def ws1 : List Char → Option (List Char)
  | x :: rest => if x.isWhitespace then some (ws0 rest) else none
  | [] => none

def monthShape2 (m : Nat) : Bool := 1 ≤ m && m ≤ 12
def monthShape1 (m : Nat) : Bool := 1 ≤ m && m ≤ 9
def dayShape2 (d : Nat) : Bool := 1 ≤ d && d ≤ 31
def dayShape1 (d : Nat) : Bool := 1 ≤ d && d ≤ 9
def hourShape2 (h : Nat) : Bool := h ≤ 23
def hourShape1 (_h : Nat) : Bool := true
def minShape2 (m : Nat) : Bool := m ≤ 59
def minShape1 (_m : Nat) : Bool := true

def isLeap (y : Nat) : Bool := (y % 4 == 0 && y % 100 != 0) || y % 400 == 0

def daysInMonth (y m : Nat) : Nat :=
  if m = 2 then (if isLeap y then 29 else 28)
  else if m = 4 ∨ m = 6 ∨ m = 9 ∨ m = 11 then 30
  else 31

/-- The day count before month m of year y. -/
def daysBeforeMonth (y m : Nat) : Nat :=
  (List.range (m - 1)).foldl (fun acc i => acc + daysInMonth y (i + 1)) 0

/-- Proleptic Gregorian ordinal of a civil date, as Python date.toordinal. -/
def toOrdinal (y m d : Nat) : Nat :=
  365 * (y - 1) + (y - 1) / 4 - (y - 1) / 100 + (y - 1) / 400 + daysBeforeMonth y m + d

/-- The datetime constructor validation: MINYEAR is 1 and the day must fit
the month. -/
def civilValid (y m d : Nat) : Bool :=
  1 ≤ y && 1 ≤ d && d ≤ daysInMonth y m

/-- The %Y-%m-%d shape, returning the unconsumed input. -/
def ymdCore (cs : List Char) : Option ((Nat × Nat × Nat) × List Char) :=
  (digits4 cs).bind fun py =>
    (lit '-' py.2).bind fun cs2 =>
      (num2or1 monthShape2 monthShape1 cs2).bind fun pm =>
        (lit '-' pm.2).bind fun cs4 =>
          (num2or1 dayShape2 dayShape1 cs4).bind fun pd =>
            some ((py.1, pm.1, pd.1), pd.2)

/-- The %H:%M shape, returning the unconsumed input. -/
def hmCore (cs : List Char) : Option ((Nat × Nat) × List Char) :=
  (num2or1 hourShape2 hourShape1 cs).bind fun ph =>
    (lit ':' ph.2).bind fun cs2 =>
      (num2or1 minShape2 minShape1 cs2).bind fun pm =>
        some ((ph.1, pm.1), pm.2)

/-- strptime(s, "%Y-%m-%d") as used by list_events: full match plus the
datetime constructor validation. -/
def parseYMD (s : String) : Option (Nat × Nat × Nat) :=
  match ymdCore s.toList with
  | some (ymd, []) => if civilValid ymd.1 ymd.2.1 ymd.2.2 then some ymd else none
  | _ => none

/-- strptime(s, "%H:%M") on its own: full match. -/
def parseHM (s : String) : Option (Nat × Nat) :=
  match hmCore s.toList with
  | some (hm, []) => some hm
  | _ => none

/-- strptime(s, "%Y-%m-%d %H:%M") as used by create_event and
update_event, producing the instant in minutes. -/
def dtParse (s : String) : Option Nat :=
  (ymdCore s.toList).bind fun pymd =>
    (ws1 pymd.2).bind fun cs1 =>
      match hmCore cs1 with
      | some (hm, []) =>
        if civilValid pymd.1.1 pymd.1.2.1 pymd.1.2.2 then
          some (toOrdinal pymd.1.1 pymd.1.2.1 pymd.1.2.2 * 1440 + hm.1 * 60 + hm.2)
        else none
      | _ => none

/-! ### Data model and provider boundary -/

/-- A stored calendar event, as the provider keeps it. -/
structure GEvent where
  id : String
  summary : String
  startMin : Int
  endMin : Int
  description : String
deriving Repr, DecidableEq

/-- The provider-side calendar state, plus the count of update calls
issued over the wire (the observable remote-mutation boundary). -/
structure CalState where
  events : List GEvent
  nextId : Nat
  todayOrd : Nat
  updateCalls : Nat
deriving Repr, DecidableEq

inductive CalError where
  | validationError (msg : String)
  | notFoundError (msg : String)
  | typeError (msg : String)
deriving Repr, DecidableEq

def CalError.msg : CalError → String
  | .validationError m => m
  | .notFoundError m => m
  | .typeError m => m

def evLe (a b : GEvent) : Prop := a.startMin ≤ b.startMin

instance : DecidableRel evLe := fun a b =>
  inferInstanceAs (Decidable (a.startMin ≤ b.startMin))

instance : IsTotal GEvent evLe := ⟨fun a b => Int.le_total a.startMin b.startMin⟩

instance : IsTrans GEvent evLe := ⟨fun _ _ _ h1 h2 => le_trans h1 h2⟩

/-- The provider list call: events with start in the inclusive-lower /
exclusive-upper window, ordered ascending by start time. -/
def svcList (st : CalState) (lo hi : Int) : List GEvent :=
  List.insertionSort evLe
    (st.events.filter (fun g => decide (lo ≤ g.startMin) && decide (g.startMin < hi)))

def svcGet (st : CalState) (eid : String) : Option GEvent :=
  st.events.find? (fun g => g.id == eid)

/-- A fresh provider id for an inserted event. -/
def mkId (n : Nat) : String := "evt" ++ toString n

def mkLink (eid : String) : String := "https://calendar/event/" ++ eid

structure CreateResult where
  id : String
  title : String
  start : Int
  link : String
deriving Repr, DecidableEq

structure ListedEvent where
  id : String
  title : String
  start : Int
  description : String
deriving Repr, DecidableEq

structure DeleteResult where
  success : Bool
  message : String
deriving Repr, DecidableEq

structure UpdateResult where
  id : String
  title : String
  start : Int
deriving Repr, DecidableEq

def projectEvent (g : GEvent) : ListedEvent :=
  { id := g.id, title := g.summary, start := g.startMin, description := g.description }

/-! ### calendar_tools.py operations -/

/-- The event body create_event submits to the provider. -/
def createdEvent (n : Nat) (title : String) (s dur : Int) (desc : String) : GEvent :=
  { id := mkId n, summary := title, startMin := s, endMin := s + dur,
    description := desc }

/-- The id, title, start and link fields create_event returns. -/
def createdResult (n : Nat) (title : String) (s : Int) : CreateResult :=
  { id := mkId n, title := title, start := s, link := mkLink (mkId n) }

/-- create_event: strptime the combined date-time string, add the
duration, insert, and return the id, title, start and link fields. -/
def create_event (st : CalState) (title date time : String)
    (duration_minutes : Int := 60) (description : String := "") :
    Except CalError (CreateResult × CalState) :=
  match dtParse (date ++ " " ++ time) with
  | none =>
    .error (.validationError
      ("time data " ++ date ++ " " ++ time ++ " does not match format %Y-%m-%d %H:%M"))
  | some s =>
    .ok (createdResult st.nextId title (s : Int),
      { st with
        events := st.events ++ [createdEvent st.nextId title (s : Int) duration_minutes description],
        nextId := st.nextId + 1 })

/-- The date resolution of list_events: today when the argument is None
or the string today, else strptime %Y-%m-%d at midnight. -/
def resolveStartDate (st : CalState) (date : Option String) : Except CalError Int :=
  if date = some "today" ∨ date = none then
    .ok ((st.todayOrd * 1440 : Nat) : Int)
  else
    match parseYMD (date.getD "") with
    | some (y, m, d) => .ok ((toOrdinal y m d * 1440 : Nat) : Int)
    | none => .error (.validationError "time data does not match format %Y-%m-%d")

/-- list_events: resolve the start of day, query the half-open window of
days_ahead days, and project each event to id, title, start, description. -/
def list_events (st : CalState) (date : Option String := none) (days_ahead : Int := 1) :
    Except CalError (List ListedEvent) :=
  match resolveStartDate st date with
  | .error e => .error e
  | .ok lo => .ok ((svcList st lo (lo + days_ahead * 1440)).map projectEvent)

/-- delete_event: the provider delete raises NotFound for an unknown id,
else removes the event and reports success. -/
def delete_event (st : CalState) (event_id : String) :
    Except CalError (DeleteResult × CalState) :=
  if st.events.any (fun g => g.id == event_id) then
    .ok ({ success := true, message := "Event " ++ event_id ++ " deleted" },
      { st with events := st.events.filter (fun g => ¬ g.id = event_id) })
  else
    .error (.notFoundError ("Event " ++ event_id ++ " not found"))

/-- ASCII lowercasing of one character, modelling the str.lower used for
the case-insensitive title comparison. -/
def lowerChar (c : Char) : Char :=
  if 'A' ≤ c ∧ c ≤ 'Z' then Char.ofNat (c.toNat + 32) else c

/-- ASCII lowercasing of a string. -/
def lowerStr (s : String) : String := String.mk (s.toList.map lowerChar)

/-- delete_event_by_title: list the range, return a structured failure
when the range is empty or the title does not match, delete the first
case-insensitive match otherwise; every error is converted into the
structured result, never re-raised. -/
def delete_event_by_title (st : CalState) (title : String)
    (date : String := "today") (days_ahead : Int := 1) : DeleteResult × CalState :=
  match list_events st (some date) days_ahead with
  | .error e => ({ success := false, message := "Error: " ++ e.msg }, st)
  | .ok evs =>
    if evs.isEmpty then
      ({ success := false, message := "No events found on " ++ date }, st)
    else
      match evs.find? (fun e => lowerStr e.title == lowerStr title) with
      | some ev =>
        match delete_event st ev.id with
        | .ok (_, st') =>
          ({ success := true, message := "Deleted event: " ++ ev.title }, st')
        | .error e =>
          ({ success := false, message := "Error deleting event: " ++ e.msg }, st)
      | none =>
        ({ success := false,
           message := "Could not find an event with title " ++ title ++ " on " ++ date }, st)

/-- Python truthiness of an optional string argument: None and the empty
string are falsy. -/
def pyTruthyS : Option String → Bool
  | none => false
  | some s => s ≠ ""

/-- Python truthiness of an optional integer argument: None and 0 are falsy. -/
def pyTruthyI : Option Int → Bool
  | none => false
  | some n => n ≠ 0

/-- The provider update call: replaces the body of the event with the
given id and returns the stored id, title and start. -/
def svcUpdate (st : CalState) (eid : String) (body : GEvent) :
    Except CalError (UpdateResult × CalState) :=
  if st.events.any (fun g => g.id == eid) then
    .ok ({ id := body.id, title := body.summary, start := body.startMin },
      { st with
        events := st.events.map (fun g => if g.id = eid then body else g),
        updateCalls := st.updateCalls + 1 })
  else
    .error (.notFoundError ("Event " ++ eid ++ " not found"))

/-- update_event: fetch the event, overwrite the title when truthy,
overwrite start and end only when date and time are both truthy (keeping
the original duration when duration_minutes is falsy), then issue the
provider update unconditionally. -/
def update_event (st : CalState) (event_id : String)
    (title : Option String := none) (date : Option String := none)
    (time : Option String := none) (duration_minutes : Option Int := none) :
    Except CalError (UpdateResult × CalState) :=
  match svcGet st event_id with
  | none => .error (.notFoundError ("Event " ++ event_id ++ " not found"))
  | some ev =>
    let ev1 := if pyTruthyS title then { ev with summary := title.getD "" } else ev
    if pyTruthyS date && pyTruthyS time then
      match dtParse (date.getD "" ++ " " ++ time.getD "") with
      | none =>
        .error (.validationError
          ("time data " ++ date.getD "" ++ " " ++ time.getD ""
            ++ " does not match format %Y-%m-%d %H:%M"))
      | some s =>
        let startMin : Int := (s : Int)
        let endMin : Int :=
          if pyTruthyI duration_minutes then startMin + duration_minutes.getD 0
          else startMin + (ev1.endMin - ev1.startMin)
        svcUpdate st event_id { ev1 with startMin := startMin, endMin := endMin }
    else
      svcUpdate st event_id ev1

/-! ### agent.py: tool dispatch and the conversation loop -/

/-- The untyped keyword-argument mapping a tool call carries; an absent
key is none. -/
structure ToolInput where
  title : Option String := none
  date : Option String := none
  time : Option String := none
  duration_minutes : Option Int := none
  description : Option String := none
  days_ahead : Option Int := none
  event_id : Option String := none
deriving Repr, DecidableEq

/-- A tool result payload: a success object of one of the handlers, or
the error object the dispatcher folds failures into. -/
inductive ToolResult where
  | created (r : CreateResult)
  | listed (evs : List ListedEvent)
  | deleted (r : DeleteResult)
  | updated (r : UpdateResult)
  | error (msg : String)
deriving Repr, DecidableEq

/-- The body of the try block of process_tool_call: the if/elif chain
over the five tool names, the unknown-name error object, and the
keyword binding of each handler (a missing required argument raises). -/
def dispatchExc (st : CalState) (name : String) (inp : ToolInput) :
    Except CalError (ToolResult × CalState) :=
  if name = "create_event" then
    match inp.title, inp.date, inp.time with
    | some title, some date, some time =>
      (create_event st title date time (inp.duration_minutes.getD 60)
        (inp.description.getD "")).map (fun p => (ToolResult.created p.1, p.2))
    | _, _, _ => .error (.typeError "create_event missing required argument")
  else if name = "list_events" then
    (list_events st inp.date (inp.days_ahead.getD 1)).map
      (fun evs => (ToolResult.listed evs, st))
  else if name = "delete_event_by_title" then
    match inp.title with
    | some title =>
      let p := delete_event_by_title st title (inp.date.getD "today") (inp.days_ahead.getD 1)
      .ok (ToolResult.deleted p.1, p.2)
    | none => .error (.typeError "delete_event_by_title missing required argument")
  else if name = "delete_event" then
    match inp.event_id with
    | some eid => (delete_event st eid).map (fun p => (ToolResult.deleted p.1, p.2))
    | none => .error (.typeError "delete_event missing required argument")
  else if name = "update_event" then
    match inp.event_id with
    | some eid =>
      (update_event st eid inp.title inp.date inp.time inp.duration_minutes).map
        (fun p => (ToolResult.updated p.1, p.2))
    | none => .error (.typeError "update_event missing required argument")
  else
    .ok (ToolResult.error ("Unknown tool: " ++ name), st)

/-- process_tool_call: run the dispatch and convert any raised exception
into an error payload, so the call is total and never aborts the loop. -/
def process_tool_call (st : CalState) (name : String) (inp : ToolInput) :
    ToolResult × CalState :=
  match dispatchExc st name inp with
  | .ok p => p
  | .error e => (ToolResult.error e.msg, st)

/-- A content block of a model response. -/
inductive Block where
  | toolUse (id name : String) (input : ToolInput)
  | textBlock (t : String)
deriving Repr, DecidableEq

def isToolUse : Block → Bool
  | .toolUse .. => true
  | .textBlock _ => false

/-- A model response: its stop reason and content blocks. -/
structure Response where
  stop_reason : String
  content : List Block
deriving Repr, DecidableEq

/-- The outcome of one chat_with_agent run. -/
inductive AgentOutcome where
  | finalText (t : String)
  | exhausted
  | crash
deriving Repr, DecidableEq

/-- The final-response extraction: the text of the first block that has
a text attribute, with the fixed fallback string. -/
def finalTextOf (content : List Block) : String :=
  match content.find? (fun b => !isToolUse b) with
  | some (.textBlock t) => t
  | _ => "Done!"

/-- The tool-use loop of chat_with_agent, driven by the successive model
responses r, rest: while the stop reason is tool_use, extract the first
tool-use block, dispatch it, and move to the next response. The first
projection records each dispatched (name, input) round in order;
exhausted marks the model transcript running out while the loop still
wants another round, and crash marks the StopIteration of a tool_use
stop reason without a tool-use block. -/
def chat_with_agent (st : CalState) (r : Response) (rest : List Response) :
    List (String × ToolInput) × CalState × AgentOutcome :=
  if r.stop_reason = "tool_use" then
    match r.content.find? isToolUse with
    | some (.toolUse _ name inp) =>
      let pr := process_tool_call st name inp
      match rest with
      | [] => ([(name, inp)], pr.2, AgentOutcome.exhausted)
      | r' :: rest' =>
        let k := chat_with_agent pr.2 r' rest'
        ((name, inp) :: k.1, k.2.1, k.2.2)
    | _ => ([], st, AgentOutcome.crash)
  else
    ([], st, AgentOutcome.finalText (finalTextOf r.content))

/-! ### Helper lemmas -/

instance {ε α : Type} [DecidableEq ε] [DecidableEq α] : DecidableEq (Except ε α) :=
  fun x y =>
    match x, y with
    | .ok a, .ok b =>
      if h : a = b then isTrue (by rw [h]) else
        isFalse (by intro hc; cases hc; exact h rfl)
    | .error a, .error b =>
      if h : a = b then isTrue (by rw [h]) else
        isFalse (by intro hc; cases hc; exact h rfl)
    | .ok _, .error _ => isFalse (by intro hc; cases hc)
    | .error _, .ok _ => isFalse (by intro hc; cases hc)

theorem find?_eq_head?_filter {α : Type} (p : α → Bool) (l : List α) :
    l.find? p = (l.filter p).head? := by
  induction l with
  | nil => rfl
  | cons a t ih =>
    by_cases h : p a
    · rw [List.find?_cons_of_pos _ h, List.filter_cons_of_pos h, List.head?_cons]
    · rw [List.find?_cons_of_neg _ h, List.filter_cons_of_neg h, ih]

/-- One unfolding of the loop at a tool-use response whose first
tool-use block is known. -/
theorem chat_step (st : CalState) (r : Response) (i name : String) (inp : ToolInput)
    (rest : List Response) (hstop : r.stop_reason = "tool_use")
    (hfind : r.content.find? isToolUse = some (Block.toolUse i name inp)) :
    chat_with_agent st r rest =
      match rest with
      | [] => ([(name, inp)], (process_tool_call st name inp).2, AgentOutcome.exhausted)
      | r' :: rest' =>
        let k := chat_with_agent (process_tool_call st name inp).2 r' rest'
        ((name, inp) :: k.1, k.2.1, k.2.2) := by
  conv_lhs => rw [chat_with_agent.eq_def]
  rw [hstop, hfind]
  cases rest <;> rfl

/-! ### Claim theorems -/

/-- A concrete empty-calendar state used by closed witnesses. -/
def stEmpty : CalState := { events := [], nextId := 0, todayOrd := 739047, updateCalls := 0 }

/-- A model response that requests one more tool round. -/
def tuResp : Response :=
  { stop_reason := "tool_use",
    content := [Block.toolUse "toolu1" "list_events" { date := some "today" }] }

/-- A model response that ends the conversation with text. -/
def finResp : Response :=
  { stop_reason := "end_turn", content := [Block.textBlock "All done"] }

/-- C1: the claim says the loop is bounded and fails with ToolLoopExceeded
after the maximum round count; the code has no bound at all (the
iterations counter is only logged). On a transcript of eleven
consecutive tool-use responses the loop dispatches all eleven rounds and
returns the final text, and in general a transcript of n plus one
tool-use rounds produces n plus one dispatches, for every n. -/
theorem c1_loop_unbounded :
    ((chat_with_agent stEmpty tuResp (List.replicate 10 tuResp ++ [finResp])).1.length = 11 ∧
      (chat_with_agent stEmpty tuResp (List.replicate 10 tuResp ++ [finResp])).2.2 =
        AgentOutcome.finalText "All done") ∧
    (∀ (n : Nat) (st : CalState),
      (chat_with_agent st tuResp (List.replicate n tuResp ++ [finResp])).1.length = n + 1 ∧
      (chat_with_agent st tuResp (List.replicate n tuResp ++ [finResp])).2.2 =
        AgentOutcome.finalText "All done") := by
  have key : ∀ (n : Nat) (st : CalState),
      (chat_with_agent st tuResp (List.replicate n tuResp ++ [finResp])).1.length = n + 1 ∧
      (chat_with_agent st tuResp (List.replicate n tuResp ++ [finResp])).2.2 =
        AgentOutcome.finalText "All done" := by
    intro n
    induction n with
    | zero => intro st; exact ⟨rfl, rfl⟩
    | succ k ih =>
      intro st
      rw [List.replicate_succ, List.cons_append,
        chat_step st tuResp "toolu1" "list_events" { date := some "today" } _ rfl rfl]
      exact ⟨by simpa using (ih _).1, by simpa using (ih _).2⟩
  exact ⟨key 10 stEmpty, key⟩

/-- C4: tool dispatch is total: an unrecognized tool name yields the
error object Unknown tool name without raising, and any exception a
handler raises is converted into an error payload with the state
untouched, instead of aborting the loop. -/
theorem c4_dispatch_total :
    (∀ (st : CalState) (inp : ToolInput) (name : String),
      name ≠ "create_event" → name ≠ "list_events" → name ≠ "delete_event_by_title" →
      name ≠ "delete_event" → name ≠ "update_event" →
      process_tool_call st name inp = (ToolResult.error ("Unknown tool: " ++ name), st)) ∧
    (∀ (st : CalState) (name : String) (inp : ToolInput) (e : CalError),
      dispatchExc st name inp = .error e →
      process_tool_call st name inp = (ToolResult.error e.msg, st)) := by
  constructor
  · intro st inp name h1 h2 h3 h4 h5
    simp [process_tool_call, dispatchExc, h1, h2, h3, h4, h5]
  · intro st name inp e he
    simp [process_tool_call, he]

/-- Witness for C4: the name frobnicate yields exactly the error object
of the claim, and a create_event dispatch whose handler raises on a
malformed date is folded into an error payload. -/
theorem c4_witness :
    process_tool_call stEmpty "frobnicate" {} =
      (ToolResult.error "Unknown tool: frobnicate", stEmpty) :=
  c4_dispatch_total.1 stEmpty {} "frobnicate"
    (by decide) (by decide) (by decide) (by decide) (by decide)

/-- C9: in a tool-use iteration the loop dispatches exactly the first
tool-use block of the response; any further tool-use blocks (others) do
not occur in the behaviour at all. -/
theorem c9_first_block_only (st : CalState) (r : Response) (rest : List Response)
    (i name : String) (inp : ToolInput) (others : List Block)
    (hstop : r.stop_reason = "tool_use")
    (hfilter : r.content.filter isToolUse = Block.toolUse i name inp :: others) :
    chat_with_agent st r rest =
      match rest with
      | [] => ([(name, inp)], (process_tool_call st name inp).2, AgentOutcome.exhausted)
      | r' :: rest' =>
        let k := chat_with_agent (process_tool_call st name inp).2 r' rest'
        ((name, inp) :: k.1, k.2.1, k.2.2) := by
  have hfind : r.content.find? isToolUse = some (Block.toolUse i name inp) := by
    rw [find?_eq_head?_filter, hfilter]; rfl
  exact chat_step st r i name inp rest hstop hfind

/-- Witness for C9: a response carrying two tool-use blocks dispatches
only the first of them. -/
theorem c9_witness :
    chat_with_agent stEmpty
      { stop_reason := "tool_use",
        content := [Block.toolUse "t1" "list_events" { date := some "today" },
          Block.toolUse "t2" "delete_event" { event_id := some "e9" }] } [] =
      ([("list_events", { date := some "today" })],
        (process_tool_call stEmpty "list_events" { date := some "today" }).2,
        AgentOutcome.exhausted) :=
  c9_first_block_only stEmpty
    { stop_reason := "tool_use",
      content := [Block.toolUse "t1" "list_events" { date := some "today" },
        Block.toolUse "t2" "delete_event" { event_id := some "e9" }] } []
    "t1" "list_events" { date := some "today" }
    [Block.toolUse "t2" "delete_event" { event_id := some "e9" }] rfl rfl

theorem svcList_mem {st : CalState} {lo hi : Int} {g : GEvent} :
    g ∈ svcList st lo hi ↔ g ∈ st.events ∧ lo ≤ g.startMin ∧ g.startMin < hi := by
  unfold svcList
  rw [(List.perm_insertionSort evLe _).mem_iff]
  simp [List.mem_filter]

theorem svcList_sorted (st : CalState) (lo hi : Int) :
    List.Sorted evLe (svcList st lo hi) :=
  List.sorted_insertionSort evLe _

theorem list_events_ok {st : CalState} {date : Option String} {lo : Int} (N : Int)
    (h : resolveStartDate st date = .ok lo) :
    list_events st date N = .ok ((svcList st lo (lo + N * 1440)).map projectEvent) := by
  unfold list_events
  rw [h]

/-- C5: list_events resolves a missing or today date to the current day,
queries the half-open window of days_ahead days from midnight, and
returns exactly the projections of the stored events whose start lies in
the window, in ascending start order. -/
theorem c5_list_events_window :
    (∀ (st : CalState) (N : Int),
      list_events st none N = list_events st (some "today") N ∧
      resolveStartDate st none = .ok ((st.todayOrd * 1440 : Nat) : Int) ∧
      resolveStartDate st (some "today") = .ok ((st.todayOrd * 1440 : Nat) : Int)) ∧
    (∀ (st : CalState) (date : Option String) (N lo : Int),
      resolveStartDate st date = .ok lo →
      ∃ evs, list_events st date N = .ok evs ∧
        (∀ e ∈ evs, lo ≤ e.start ∧ e.start < lo + N * 1440) ∧
        List.Sorted (fun a b : Int => a ≤ b) (evs.map ListedEvent.start) ∧
        (∀ e ∈ evs, ∃ g ∈ st.events, e = projectEvent g) ∧
        (∀ g ∈ st.events, lo ≤ g.startMin → g.startMin < lo + N * 1440 →
          projectEvent g ∈ evs)) := by
  constructor
  · intro st N
    refine ⟨?_, ?_, ?_⟩ <;> simp [list_events, resolveStartDate]
  · intro st date N lo h
    refine ⟨_, list_events_ok N h, ?_, ?_, ?_, ?_⟩
    · intro e he
      rcases List.mem_map.mp he with ⟨g, hg, rfl⟩
      rcases svcList_mem.mp hg with ⟨_, h1, h2⟩
      exact ⟨h1, h2⟩
    · have hs := svcList_sorted st lo (lo + N * 1440)
      rw [List.map_map]
      exact List.pairwise_map.mpr (hs.imp (fun {a b} hab => hab))
    · intro e he
      rcases List.mem_map.mp he with ⟨g, hg, rfl⟩
      exact ⟨g, (svcList_mem.mp hg).1, rfl⟩
    · intro g hg h1 h2
      exact List.mem_map_of_mem projectEvent (svcList_mem.mpr ⟨hg, h1, h2⟩)

/-- A concrete two-event state: one event inside 2024-06-10, one on the
next day. -/
def stTwo : CalState :=
  { events :=
      [{ id := "b", summary := "Out", startMin := 1064229180, endMin := 1064229240,
         description := "" },
       { id := "a", summary := "In", startMin := 1064228400, endMin := 1064228460,
         description := "" }],
    nextId := 2, todayOrd := 739047, updateCalls := 0 }

/-- Witness for C5 at a concrete state and date. -/
theorem c5_witness :
    ∃ evs, list_events stTwo (some "2024-06-10") 1 = .ok evs ∧
      (∀ e ∈ evs, ((toOrdinal 2024 6 10 * 1440 : Nat) : Int) ≤ e.start ∧
        e.start < ((toOrdinal 2024 6 10 * 1440 : Nat) : Int) + 1 * 1440) ∧
      List.Sorted (fun a b : Int => a ≤ b) (evs.map ListedEvent.start) ∧
      (∀ e ∈ evs, ∃ g ∈ stTwo.events, e = projectEvent g) ∧
      (∀ g ∈ stTwo.events,
        ((toOrdinal 2024 6 10 * 1440 : Nat) : Int) ≤ g.startMin →
        g.startMin < ((toOrdinal 2024 6 10 * 1440 : Nat) : Int) + 1 * 1440 →
        projectEvent g ∈ evs) :=
  c5_list_events_window.2 stTwo (some "2024-06-10") 1
    ((toOrdinal 2024 6 10 * 1440 : Nat) : Int) (by decide)

/-- C3: delete_event_by_title always returns a structured result, and on
every unsuccessful path (empty range, no title match, failed delete, or
an error while listing) it leaves the calendar state unchanged, so a
second identical call returns the same structured failure. -/
theorem c3_structured_idempotent (st : CalState) (title d : String) (N : Int)
    (h : (delete_event_by_title st title d N).1.success = false) :
    (delete_event_by_title st title d N).2 = st ∧
    delete_event_by_title (delete_event_by_title st title d N).2 title d N =
      delete_event_by_title st title d N := by
  have hsnd : (delete_event_by_title st title d N).2 = st := by
    unfold delete_event_by_title at h ⊢
    cases hle : list_events st (some d) N with
    | error e => simp
    | ok evs =>
      by_cases he : evs.isEmpty
      · simp [he]
      · cases hf : evs.find? (fun e => lowerStr e.title == lowerStr title) with
        | none => simp [he, hf]
        | some ev =>
          cases hd2 : delete_event st ev.id with
          | ok p =>
            obtain ⟨p1, p2⟩ := p
            rw [hle] at h
            simp [he, hf, hd2] at h
          | error e2 => simp [he, hf, hd2]
  exact ⟨hsnd, by rw [hsnd]⟩

/-- Witness for C3: two consecutive calls for an absent title return the
same structured failure on an empty calendar. -/
theorem c3_witness :
    (delete_event_by_title stEmpty "Lunch" "2024-06-10" 1).2 = stEmpty ∧
    delete_event_by_title (delete_event_by_title stEmpty "Lunch" "2024-06-10" 1).2
        "Lunch" "2024-06-10" 1 =
      delete_event_by_title stEmpty "Lunch" "2024-06-10" 1 :=
  c3_structured_idempotent stEmpty "Lunch" "2024-06-10" 1 (by decide)

theorem map_id_of_fixes (l : List GEvent) (f : GEvent → GEvent)
    (h : ∀ g ∈ l, f g = g) : l.map f = l := by
  induction l with
  | nil => rfl
  | cons a tl ih =>
    rw [List.map_cons, h a (List.mem_cons_self a tl),
      ih (fun g hg => h g (List.mem_cons_of_mem a hg))]

/-- Two stored events with the same id are the same event when the ids
are pairwise distinct. -/
theorem nodup_id_unique (l : List GEvent) (hnd : (l.map GEvent.id).Nodup)
    {a b : GEvent} (ha : a ∈ l) (hb : b ∈ l) (hid : a.id = b.id) : a = b := by
  induction l with
  | nil => cases ha
  | cons x tl ih =>
    rw [List.map_cons, List.nodup_cons] at hnd
    rcases List.mem_cons.mp ha with rfl | hat <;> rcases List.mem_cons.mp hb with rfl | hbt
    · rfl
    · exact absurd (hid ▸ List.mem_map_of_mem GEvent.id hbt) hnd.1
    · exact absurd (hid ▸ List.mem_map_of_mem GEvent.id hat) hnd.1
    · exact ih hnd.2 hat hbt

theorem map_replace_self (l : List GEvent) (eid : String) (ev : GEvent)
    (hnd : (l.map GEvent.id).Nodup) (hmem : ev ∈ l) (hid : ev.id = eid) :
    l.map (fun g => if g.id = eid then ev else g) = l := by
  apply map_id_of_fixes
  intro g hg
  by_cases h : g.id = eid
  · rw [if_pos h]
    exact nodup_id_unique l hnd hmem hg (by rw [hid, h])
  · rw [if_neg h]

theorem svcUpdate_ok (st : CalState) (eid : String) (body : GEvent)
    (hany : st.events.any (fun g => g.id == eid) = true) :
    svcUpdate st eid body =
      .ok ({ id := body.id, title := body.summary, start := body.startMin },
        { st with
          events := st.events.map (fun g => if g.id = eid then body else g),
          updateCalls := st.updateCalls + 1 }) := by
  unfold svcUpdate
  rw [if_pos hany]

theorem mem_map_replace {l : List GEvent} {ev : GEvent} {eid : String} (body : GEvent)
    (hmem : ev ∈ l) (hid : ev.id = eid) :
    body ∈ l.map (fun g => if g.id = eid then body else g) := by
  have h := List.mem_map_of_mem (fun g => if g.id = eid then body else g) hmem
  simpa [hid] using h

theorem svcGet_mem {st : CalState} {eid : String} {ev : GEvent}
    (hget : svcGet st eid = some ev) : ev ∈ st.events := by
  have hfind : st.events.find? (fun g => g.id == eid) = some ev := hget
  exact List.mem_of_find?_eq_some hfind

theorem svcGet_id {st : CalState} {eid : String} {ev : GEvent}
    (hget : svcGet st eid = some ev) : ev.id = eid := by
  have hfind : st.events.find? (fun g => g.id == eid) = some ev := hget
  simpa using List.find?_some hfind

/-- update_event with a truthy date and time, a falsy duration and a
falsy title replaces start and end keeping the original duration. -/
theorem update_event_date_time (st : CalState) (ev : GEvent) (eid : String)
    (titleOpt : Option String) (d t : String) (dur : Option Int) (s : Nat)
    (hget : svcGet st eid = some ev) (hd : d ≠ "") (ht : t ≠ "")
    (hparse : dtParse (d ++ " " ++ t) = some s)
    (hdur : pyTruthyI dur = false) (htitle : pyTruthyS titleOpt = false) :
    update_event st eid titleOpt (some d) (some t) dur =
      svcUpdate st eid
        { ev with startMin := (s : Int), endMin := (s : Int) + (ev.endMin - ev.startMin) } := by
  unfold update_event
  rw [hget]
  have h1 : pyTruthyS (some d) = true := by simp [pyTruthyS, hd]
  have h2 : pyTruthyS (some t) = true := by simp [pyTruthyS, ht]
  simp only [htitle, Bool.false_eq_true, if_false, h1, h2, Bool.and_self, if_true,
    Option.getD_some, hparse, hdur]

/-- update_event with date and time not both truthy skips the start and
end replacement entirely and still issues the provider update. -/
theorem update_event_skip (st : CalState) (ev : GEvent) (eid : String)
    (titleOpt dOpt tOpt : Option String) (dur : Option Int)
    (hget : svcGet st eid = some ev)
    (hnb : (pyTruthyS dOpt && pyTruthyS tOpt) = false) :
    update_event st eid titleOpt dOpt tOpt dur =
      svcUpdate st eid
        (if pyTruthyS titleOpt then { ev with summary := titleOpt.getD "" } else ev) := by
  unfold update_event
  rw [hget]
  simp only [hnb, Bool.false_eq_true, if_false]

/-- A concrete one-event state used in witnesses. -/
def evLunch : GEvent :=
  { id := "e1", summary := "Lunch", startMin := 1064228400, endMin := 1064228460,
    description := "" }

def stOne : CalState :=
  { events := [evLunch], nextId := 1, todayOrd := 739047, updateCalls := 0 }

/-- C2 counterexample: update_event on event e1 with date 2024-06-11 and
no time does not fail with a validation error: it succeeds, leaves the
event untouched, and still issues one provider update call. -/
theorem c2_counterexample :
    update_event stOne "e1" none (some "2024-06-11") none none =
      .ok ({ id := "e1", title := "Lunch", start := 1064228400 },
        { events := [evLunch], nextId := 1, todayOrd := 739047, updateCalls := 1 }) := by
  decide

/-- C2 amended: for every update_event call on an existing event where
date and time are not both supplied truthy and no title is supplied, the
operation does not fail with a validation error: it returns ok, the
stored events are unchanged, and exactly one provider update call is
still issued. -/
theorem c2_one_sided_update (st : CalState) (ev : GEvent) (eid : String)
    (dOpt tOpt : Option String) (dur : Option Int)
    (hids : (st.events.map GEvent.id).Nodup)
    (hget : svcGet st eid = some ev)
    (hnb : (pyTruthyS dOpt && pyTruthyS tOpt) = false) :
    ∃ r st', update_event st eid none dOpt tOpt dur = .ok (r, st') ∧
      st'.events = st.events ∧ st'.updateCalls = st.updateCalls + 1 := by
  have hmem : ev ∈ st.events := svcGet_mem hget
  have hideq : ev.id = eid := svcGet_id hget
  have hbeq : (ev.id == eid) = true := by simp [hideq]
  have hany : st.events.any (fun g => g.id == eid) = true :=
    List.any_eq_true.mpr ⟨ev, hmem, hbeq⟩
  rw [update_event_skip st ev eid none dOpt tOpt dur hget hnb]
  have hno : (if pyTruthyS none then { ev with summary := (none : Option String).getD "" }
      else ev) = ev := by simp [pyTruthyS]
  rw [hno, svcUpdate_ok st eid ev hany]
  exact ⟨_, _, rfl, map_replace_self st.events eid ev hids hmem hideq, rfl⟩

/-- Witness for the amended C2 at a concrete one-event state. -/
theorem c2_witness :
    ∃ r st', update_event stOne "e1" none none (some "12:00") none = .ok (r, st') ∧
      st'.events = stOne.events ∧ st'.updateCalls = stOne.updateCalls + 1 :=
  c2_one_sided_update stOne evLunch "e1" none (some "12:00") none
    (by decide) (by decide) (by decide)

/-- C6: update_event with both date and time and no duration keeps the
original duration exactly, and leaves the title unchanged when no title
argument is supplied. -/
theorem c6_update_preserves_duration (st : CalState) (ev : GEvent) (eid d t : String)
    (s : Nat) (hget : svcGet st eid = some ev) (hd : d ≠ "") (ht : t ≠ "")
    (hparse : dtParse (d ++ " " ++ t) = some s) :
    ∃ r st', update_event st eid none (some d) (some t) none = .ok (r, st') ∧
      r.title = ev.summary ∧ r.start = (s : Int) ∧
      ∃ g ∈ st'.events, g.id = ev.id ∧ g.summary = ev.summary ∧
        g.startMin = (s : Int) ∧ g.endMin - g.startMin = ev.endMin - ev.startMin := by
  have hmem : ev ∈ st.events := svcGet_mem hget
  have hideq : ev.id = eid := svcGet_id hget
  have hbeq : (ev.id == eid) = true := by simp [hideq]
  have hany : st.events.any (fun g => g.id == eid) = true :=
    List.any_eq_true.mpr ⟨ev, hmem, hbeq⟩
  rw [update_event_date_time st ev eid none d t none s hget hd ht hparse rfl rfl,
    svcUpdate_ok st eid _ hany]
  refine ⟨_, _, rfl, rfl, rfl, ?_⟩
  exact ⟨{ ev with startMin := (s : Int), endMin := (s : Int) + (ev.endMin - ev.startMin) },
    mem_map_replace _ hmem hideq, rfl, rfl, rfl, by ring⟩

/-- Witness for C6 at a concrete event moved to 2024-06-11 09:30. -/
theorem c6_witness :
    ∃ r st', update_event stOne "e1" none (some "2024-06-11") (some "09:30") none =
        .ok (r, st') ∧
      r.title = evLunch.summary ∧
      r.start = ((toOrdinal 2024 6 11 * 1440 + 570 : Nat) : Int) ∧
      ∃ g ∈ st'.events, g.id = evLunch.id ∧ g.summary = evLunch.summary ∧
        g.startMin = ((toOrdinal 2024 6 11 * 1440 + 570 : Nat) : Int) ∧
        g.endMin - g.startMin = evLunch.endMin - evLunch.startMin :=
  c6_update_preserves_duration stOne evLunch "e1" "2024-06-11" "09:30"
    (toOrdinal 2024 6 11 * 1440 + 570) (by decide) (by decide) (by decide) (by decide)

/-- C10: supplied-but-falsy optional arguments are treated as omitted:
an empty-string title leaves the stored title unchanged, and a zero
duration_minutes together with date and time keeps the original
duration instead of producing a zero-length event. -/
theorem c10_falsy_args_ignored (st : CalState) (ev : GEvent) (eid d t : String)
    (s : Nat) (hget : svcGet st eid = some ev) (hd : d ≠ "") (ht : t ≠ "")
    (hparse : dtParse (d ++ " " ++ t) = some s) :
    (∃ r st', update_event st eid (some "") none none none = .ok (r, st') ∧
      r.title = ev.summary ∧
      ∃ g ∈ st'.events, g.id = ev.id ∧ g.summary = ev.summary ∧
        g.startMin = ev.startMin ∧ g.endMin = ev.endMin) ∧
    (∃ r st', update_event st eid none (some d) (some t) (some 0) = .ok (r, st') ∧
      ∃ g ∈ st'.events, g.id = ev.id ∧ g.startMin = (s : Int) ∧
        g.endMin - g.startMin = ev.endMin - ev.startMin) := by
  have hmem : ev ∈ st.events := svcGet_mem hget
  have hideq : ev.id = eid := svcGet_id hget
  have hbeq : (ev.id == eid) = true := by simp [hideq]
  have hany : st.events.any (fun g => g.id == eid) = true :=
    List.any_eq_true.mpr ⟨ev, hmem, hbeq⟩
  constructor
  · rw [update_event_skip st ev eid (some "") none none none hget rfl]
    have hno : (if pyTruthyS (some "") then { ev with summary := (some "").getD "" }
        else ev) = ev := by simp [pyTruthyS]
    rw [hno, svcUpdate_ok st eid ev hany]
    exact ⟨_, _, rfl, rfl, ev, mem_map_replace ev hmem hideq, rfl, rfl, rfl, rfl⟩
  · have hdur : pyTruthyI (some 0) = false := by simp [pyTruthyI]
    rw [update_event_date_time st ev eid none d t (some 0) s hget hd ht hparse hdur rfl,
      svcUpdate_ok st eid _ hany]
    refine ⟨_, _, rfl, ?_⟩
    exact ⟨{ ev with startMin := (s : Int), endMin := (s : Int) + (ev.endMin - ev.startMin) },
      mem_map_replace _ hmem hideq, rfl, rfl, by ring⟩

/-- Witness for C10 at a concrete event: empty title and zero duration
are both ignored. -/
theorem c10_witness :
    (∃ r st', update_event stOne "e1" (some "") none none none = .ok (r, st') ∧
      r.title = evLunch.summary ∧
      ∃ g ∈ st'.events, g.id = evLunch.id ∧ g.summary = evLunch.summary ∧
        g.startMin = evLunch.startMin ∧ g.endMin = evLunch.endMin) ∧
    (∃ r st', update_event stOne "e1" none (some "2024-06-11") (some "09:30") (some 0) =
        .ok (r, st') ∧
      ∃ g ∈ st'.events, g.id = evLunch.id ∧
        g.startMin = ((toOrdinal 2024 6 11 * 1440 + 570 : Nat) : Int) ∧
        g.endMin - g.startMin = evLunch.endMin - evLunch.startMin) :=
  c10_falsy_args_ignored stOne evLunch "e1" "2024-06-11" "09:30"
    (toOrdinal 2024 6 11 * 1440 + 570) (by decide) (by decide) (by decide) (by decide)

/-! ### C7: delete_event_by_title deletes the earliest match -/

theorem delete_event_ok {st : CalState} {eid : String}
    (hany : st.events.any (fun g => g.id == eid) = true) :
    delete_event st eid =
      .ok ({ success := true, message := "Event " ++ eid ++ " deleted" },
        { st with events := st.events.filter (fun g => ¬ g.id = eid) }) := by
  unfold delete_event
  rw [if_pos hany]

/-- In a list sorted ascending by start, the first element found by a
predicate has the least start among all elements satisfying it. -/
theorem find?_min_start (p : ListedEvent → Bool) (l : List ListedEvent) (m : ListedEvent)
    (hs : l.Pairwise (fun a b => a.start ≤ b.start))
    (hf : l.find? p = some m) :
    ∀ e ∈ l, p e = true → m.start ≤ e.start := by
  induction l with
  | nil => simp at hf
  | cons a tl ih =>
    rcases List.pairwise_cons.mp hs with ⟨ha, htl⟩
    by_cases hpa : p a
    · rw [List.find?_cons_of_pos _ hpa] at hf
      injection hf with hf
      subst hf
      intro e he _
      rcases List.mem_cons.mp he with rfl | he
      · exact le_refl _
      · exact ha e he
    · rw [List.find?_cons_of_neg _ hpa] at hf
      intro e he hpe
      rcases List.mem_cons.mp he with rfl | he
      · exact absurd hpe (by simpa using hpa)
      · exact ih htl hf e he hpe

/-- Dropping the single event with a given id shortens the list by
exactly one when the ids are pairwise distinct. -/
theorem filter_ne_id_length (l : List GEvent) (i : String)
    (hnd : (l.map GEvent.id).Nodup) (g : GEvent) (hg : g ∈ l) (hid : g.id = i) :
    (l.filter (fun x => ¬ x.id = i)).length + 1 = l.length := by
  induction l with
  | nil => cases hg
  | cons a tl ih =>
    rw [List.map_cons, List.nodup_cons] at hnd
    rcases List.mem_cons.mp hg with rfl | hgt
    · have htl : tl.filter (fun x => ¬ x.id = i) = tl := by
        rw [List.filter_eq_self]
        intro x hx
        have hx2 : x.id ≠ i := by
          intro he
          apply hnd.1
          rw [hid, ← he]
          exact List.mem_map_of_mem GEvent.id hx
        simpa using hx2
      rw [List.filter_cons]
      simp only [hid, not_true, decide_False, Bool.false_eq_true, if_false, htl,
        List.length_cons]
    · have ha : a.id ≠ i := by
        intro he
        apply hnd.1
        rw [he, ← hid]
        exact List.mem_map_of_mem GEvent.id hgt
      have hrec := ih hnd.2 hgt
      rw [List.filter_cons]
      simp only [ha, not_false_iff, decide_True, if_true, List.length_cons]
      omega

/-- Destructor for a successful list_events call. -/
theorem list_events_ok_elim {st : CalState} {date : Option String} {N : Int}
    {evs : List ListedEvent} (h : list_events st date N = .ok evs) :
    ∃ lo, resolveStartDate st date = .ok lo ∧
      evs = (svcList st lo (lo + N * 1440)).map projectEvent := by
  unfold list_events at h
  cases hr : resolveStartDate st date with
  | error e => rw [hr] at h; cases h
  | ok lo =>
    rw [hr] at h
    injection h with h
    exact ⟨lo, rfl, h.symm⟩

/-- C7: when the listed range has at least one case-insensitive title
match, delete_event_by_title removes exactly the first match of the
ascending listing, that match has the least start among all matches, and
the structured result reports success with that title. -/
theorem c7_delete_earliest_match (st : CalState) (title d : String) (N : Int)
    (evs : List ListedEvent) (m : ListedEvent)
    (hids : (st.events.map GEvent.id).Nodup)
    (hlist : list_events st (some d) N = .ok evs)
    (hfind : evs.find? (fun e => lowerStr e.title == lowerStr title) = some m) :
    delete_event_by_title st title d N =
      ({ success := true, message := "Deleted event: " ++ m.title },
        { st with events := st.events.filter (fun g => ¬ g.id = m.id) }) ∧
    (st.events.filter (fun g => ¬ g.id = m.id)).length + 1 = st.events.length ∧
    (∀ e ∈ evs, (lowerStr e.title == lowerStr title) = true → m.start ≤ e.start) := by
  obtain ⟨lo, hr, hevs⟩ := list_events_ok_elim hlist
  have hmemevs : m ∈ evs := List.mem_of_find?_eq_some hfind
  obtain ⟨g, hgsvc, hgm⟩ : ∃ g ∈ svcList st lo (lo + N * 1440), projectEvent g = m := by
    rw [hevs] at hmemevs
    rcases List.mem_map.mp hmemevs with ⟨g, hg, he⟩
    exact ⟨g, hg, he⟩
  have hgmem : g ∈ st.events := (svcList_mem.mp hgsvc).1
  have hgid : g.id = m.id := by rw [← hgm]; rfl
  have hany : st.events.any (fun x => x.id == m.id) = true :=
    List.any_eq_true.mpr ⟨g, hgmem, by simp [hgid]⟩
  have hne : evs.isEmpty = false := by
    cases evs with
    | nil => simp at hfind
    | cons a tl => rfl
  refine ⟨?_, filter_ne_id_length st.events m.id hids g hgmem hgid, ?_⟩
  · unfold delete_event_by_title
    rw [hlist]
    simp only [hne, Bool.false_eq_true, if_false, hfind, delete_event_ok hany]
  · have hsorted : evs.Pairwise (fun a b => a.start ≤ b.start) := by
      rw [hevs]
      exact List.pairwise_map.mpr ((svcList_sorted st lo _).imp (fun hab => hab))
    exact find?_min_start _ evs m hsorted hfind

/-- A concrete event titled standup early on 2024-06-10. -/
def evEarly : GEvent :=
  { id := "early", summary := "standup", startMin := 1064227800, endMin := 1064227860,
    description := "" }

/-- A concrete event titled Standup later on 2024-06-10. -/
def evLate : GEvent :=
  { id := "late", summary := "Standup", startMin := 1064228520, endMin := 1064228580,
    description := "" }

/-- A concrete state with two events whose titles match standup
case-insensitively. -/
def stDup : CalState :=
  { events := [evLate, evEarly], nextId := 3, todayOrd := 739047, updateCalls := 0 }

/-- Witness for C7: with two case-insensitive matches the earlier one is
deleted and reported. -/
theorem c7_witness :
    delete_event_by_title stDup "STANDUP" "2024-06-10" 1 =
      ({ success := true, message := "Deleted event: " ++ (projectEvent evEarly).title },
        { stDup with
          events := stDup.events.filter (fun g => ¬ g.id = (projectEvent evEarly).id) }) ∧
    (stDup.events.filter (fun g => ¬ g.id = (projectEvent evEarly).id)).length + 1 =
      stDup.events.length ∧
    (∀ e ∈ [projectEvent evEarly, projectEvent evLate],
      (lowerStr e.title == lowerStr "STANDUP") = true →
      (projectEvent evEarly).start ≤ e.start) :=
  c7_delete_earliest_match stDup "STANDUP" "2024-06-10" 1
    [projectEvent evEarly, projectEvent evLate] (projectEvent evEarly)
    (by decide) (by decide) (by decide)

/-! ### C8: create_event validation and construction -/

theorem not_ws_of_digit {c : Char} (h : c.isDigit = true) : c.isWhitespace = false := by
  have h1 : c ≠ ' ' := by intro he; subst he; exact absurd h (by decide)
  have h2 : c ≠ '\t' := by intro he; subst he; exact absurd h (by decide)
  have h3 : c ≠ '\r' := by intro he; subst he; exact absurd h (by decide)
  have h4 : c ≠ '\n' := by intro he; subst he; exact absurd h (by decide)
  simp [Char.isWhitespace, h1, h2, h3, h4]

theorem ws0_of_digit_head {a : Char} (tl : List Char) (ha : a.isDigit = true) :
    ws0 (a :: tl) = a :: tl := by
  unfold ws0
  rw [not_ws_of_digit ha]
  simp

theorem ws1_space (cs : List Char) : ws1 (' ' :: cs) = some (ws0 cs) := by
  unfold ws1
  simp

theorem digits4_append {cs rs : List Char} {v : Nat} (ys : List Char)
    (h : digits4 cs = some (v, rs)) : digits4 (cs ++ ys) = some (v, rs ++ ys) := by
  rcases cs with _ | ⟨a, _ | ⟨b, _ | ⟨c, _ | ⟨d, rest⟩⟩⟩⟩
  · simp [digits4] at h
  · simp [digits4] at h
  · simp [digits4] at h
  · simp [digits4] at h
  · simp only [digits4, List.cons_append] at h ⊢
    by_cases hc : (a.isDigit && b.isDigit && c.isDigit && d.isDigit) = true
    · rw [if_pos hc] at h
      rw [if_pos hc]
      injection h with h2
      injection h2 with hv hr
      subst hv; subst hr; rfl
    · rw [if_neg hc] at h; cases h

theorem lit_append {c : Char} {cs rs : List Char} (ys : List Char)
    (h : lit c cs = some rs) : lit c (cs ++ ys) = some (rs ++ ys) := by
  rcases cs with _ | ⟨x, rest⟩
  · simp [lit] at h
  · simp only [lit, List.cons_append] at h ⊢
    by_cases hx : x = c
    · rw [if_pos hx] at h
      rw [if_pos hx]
      injection h with h2
      subst h2; rfl
    · rw [if_neg hx] at h; cases h

theorem num2or1_append {v2 v1 : Nat → Bool} {cs rs : List Char} {v : Nat} (ys : List Char)
    (h : num2or1 v2 v1 cs = some (v, rs)) (hrs : rs ≠ []) :
    num2or1 v2 v1 (cs ++ ys) = some (v, rs ++ ys) := by
  rcases cs with _ | ⟨a, _ | ⟨b, rest⟩⟩
  · simp [num2or1] at h
  · simp only [num2or1] at h
    by_cases hc : (a.isDigit && v1 (dval a)) = true
    · rw [if_pos hc] at h
      injection h with h2
      injection h2 with hv hr
      exact absurd hr.symm hrs
    · rw [if_neg hc] at h; cases h
  · simp only [num2or1, List.cons_append] at h ⊢
    by_cases hc2 : (a.isDigit && b.isDigit && v2 (dval a * 10 + dval b)) = true
    · rw [if_pos hc2] at h
      rw [if_pos hc2]
      injection h with h2
      injection h2 with hv hr
      subst hv; subst hr; rfl
    · rw [if_neg hc2] at h
      rw [if_neg hc2]
      by_cases hc1 : (a.isDigit && v1 (dval a)) = true
      · rw [if_pos hc1] at h
        rw [if_pos hc1]
        injection h with h2
        injection h2 with hv hr
        subst hv; subst hr; rfl
      · rw [if_neg hc1] at h; cases h

theorem num2or1_append_nil {v2 v1 : Nat → Bool} {cs : List Char} {v : Nat}
    (c : Char) (ys : List Char)
    (h : num2or1 v2 v1 cs = some (v, [])) (hc : c.isDigit = false) :
    num2or1 v2 v1 (cs ++ (c :: ys)) = some (v, c :: ys) := by
  rcases cs with _ | ⟨a, _ | ⟨b, rest⟩⟩
  · simp [num2or1] at h
  · simp only [num2or1] at h
    by_cases hc1 : (a.isDigit && v1 (dval a)) = true
    · rw [if_pos hc1] at h
      injection h with h2
      injection h2 with hv hr
      subst hv
      simp only [List.cons_append, List.nil_append, num2or1]
      have hcond : ¬ (a.isDigit && c.isDigit && v2 (dval a * 10 + dval c)) = true := by
        simp [hc]
      rw [if_neg hcond, if_pos hc1]
    · rw [if_neg hc1] at h; cases h
  · simp only [num2or1, List.cons_append] at h ⊢
    by_cases hc2 : (a.isDigit && b.isDigit && v2 (dval a * 10 + dval b)) = true
    · rw [if_pos hc2] at h
      rw [if_pos hc2]
      injection h with h2
      injection h2 with hv hr
      subst hv; subst hr; rfl
    · rw [if_neg hc2] at h
      rw [if_neg hc2]
      by_cases hc1 : (a.isDigit && v1 (dval a)) = true
      · rw [if_pos hc1] at h
        injection h with h2
        injection h2 with hv hr
        cases hr
      · rw [if_neg hc1] at h; cases h

theorem num2or1_head_digit {v2 v1 : Nat → Bool} {cs rs : List Char} {v : Nat}
    (h : num2or1 v2 v1 cs = some (v, rs)) :
    ∃ a tl, cs = a :: tl ∧ a.isDigit = true := by
  rcases cs with _ | ⟨a, _ | ⟨b, rest⟩⟩
  · simp [num2or1] at h
  · refine ⟨a, [], rfl, ?_⟩
    simp only [num2or1] at h
    by_cases hc : (a.isDigit && v1 (dval a)) = true
    · have hc' := hc
      simp only [Bool.and_eq_true] at hc'
      exact hc'.1
    · rw [if_neg hc] at h; cases h
  · refine ⟨a, b :: rest, rfl, ?_⟩
    simp only [num2or1] at h
    by_cases hc2 : (a.isDigit && b.isDigit && v2 (dval a * 10 + dval b)) = true
    · have hc' := hc2
      simp only [Bool.and_eq_true] at hc'
      exact hc'.1.1
    · rw [if_neg hc2] at h
      by_cases hc1 : (a.isDigit && v1 (dval a)) = true
      · have hc' := hc1
        simp only [Bool.and_eq_true] at hc'
        exact hc'.1
      · rw [if_neg hc1] at h; cases h

/-- Appending non-digit-headed input to a fully consumed %Y-%m-%d parse
leaves the parsed date unchanged and the appended input unconsumed. -/
theorem ymdCore_append {cs : List Char} {ymd : Nat × Nat × Nat}
    (c : Char) (ys : List Char)
    (h : ymdCore cs = some (ymd, [])) (hc : c.isDigit = false) :
    ymdCore (cs ++ (c :: ys)) = some (ymd, c :: ys) := by
  unfold ymdCore at h ⊢
  rw [Option.bind_eq_some] at h
  obtain ⟨py, h4, h⟩ := h
  obtain ⟨y, cs1⟩ := py
  dsimp only at h
  rw [Option.bind_eq_some] at h
  obtain ⟨cs2, hl1, h⟩ := h
  rw [Option.bind_eq_some] at h
  obtain ⟨pm, hm, h⟩ := h
  obtain ⟨m, cs3⟩ := pm
  dsimp only at h
  rw [Option.bind_eq_some] at h
  obtain ⟨cs4, hl2, h⟩ := h
  rw [Option.bind_eq_some] at h
  obtain ⟨pd, hd, h⟩ := h
  obtain ⟨dd, cs5⟩ := pd
  dsimp only at h
  injection h with h
  have h1 : (y, m, dd) = ymd := congrArg Prod.fst h
  have h2 : cs5 = [] := congrArg Prod.snd h
  subst h2
  have hcs3ne : cs3 ≠ [] := by
    intro he; rw [he] at hl2; simp [lit] at hl2
  rw [Option.bind_eq_some]
  refine ⟨(y, cs1 ++ (c :: ys)), digits4_append (c :: ys) h4, ?_⟩
  dsimp only
  rw [Option.bind_eq_some]
  refine ⟨cs2 ++ (c :: ys), lit_append (c :: ys) hl1, ?_⟩
  rw [Option.bind_eq_some]
  refine ⟨(m, cs3 ++ (c :: ys)), num2or1_append (c :: ys) hm hcs3ne, ?_⟩
  dsimp only
  rw [Option.bind_eq_some]
  refine ⟨cs4 ++ (c :: ys), lit_append (c :: ys) hl2, ?_⟩
  rw [Option.bind_eq_some]
  refine ⟨(dd, c :: ys), num2or1_append_nil c ys hd hc, ?_⟩
  dsimp only
  rw [h1]

theorem parseYMD_elim {s : String} {ymd : Nat × Nat × Nat}
    (h : parseYMD s = some ymd) :
    ymdCore s.toList = some (ymd, []) ∧ civilValid ymd.1 ymd.2.1 ymd.2.2 = true := by
  unfold parseYMD at h
  cases hY : ymdCore s.toList with
  | none => rw [hY] at h; cases h
  | some p =>
    obtain ⟨ymd0, rest0⟩ := p
    rw [hY] at h
    cases rest0 with
    | cons c rest => cases h
    | nil =>
      dsimp only at h
      by_cases hv : civilValid ymd0.1 ymd0.2.1 ymd0.2.2 = true
      · rw [if_pos hv] at h
        injection h with h
        subst h
        exact ⟨rfl, hv⟩
      · rw [if_neg hv] at h; cases h

theorem parseHM_elim {s : String} {hm : Nat × Nat}
    (h : parseHM s = some hm) : hmCore s.toList = some (hm, []) := by
  unfold parseHM at h
  cases hH : hmCore s.toList with
  | none => rw [hH] at h; cases h
  | some p =>
    obtain ⟨hm0, rest0⟩ := p
    rw [hH] at h
    cases rest0 with
    | cons c rest => cases h
    | nil =>
      dsimp only at h
      injection h with h
      subst h
      exact rfl

theorem hmCore_head_digit {cs : List Char} {p : (Nat × Nat) × List Char}
    (h : hmCore cs = some p) : ∃ a tl, cs = a :: tl ∧ a.isDigit = true := by
  unfold hmCore at h
  rw [Option.bind_eq_some] at h
  obtain ⟨ph, hph, _⟩ := h
  exact num2or1_head_digit hph

/-- When the date alone parses under %Y-%m-%d and the time alone under
%H:%M, the combined string parses under %Y-%m-%d %H:%M to the instant
date-midnight plus the time of day. -/
theorem dtParse_append {d t : String} {y m dd hh mi : Nat}
    (hymd : parseYMD d = some (y, m, dd)) (hhm : parseHM t = some (hh, mi)) :
    dtParse (d ++ " " ++ t) = some (toOrdinal y m dd * 1440 + hh * 60 + mi) := by
  obtain ⟨hY, hv⟩ := parseYMD_elim hymd
  have hH : hmCore t.toList = some ((hh, mi), []) := parseHM_elim hhm
  have hlist : (d ++ " " ++ t).toList = d.toList ++ (' ' :: t.toList) := by
    show (d ++ " " ++ t).data = d.data ++ (' ' :: t.data)
    rw [String.data_append, String.data_append, List.append_assoc]
    rfl
  unfold dtParse
  rw [hlist, Option.bind_eq_some]
  refine ⟨((y, m, dd), ' ' :: t.toList), ymdCore_append ' ' t.toList hY (by decide), ?_⟩
  dsimp only
  rw [ws1_space, Option.bind_eq_some]
  refine ⟨ws0 t.toList, rfl, ?_⟩
  have hws : ws0 t.toList = t.toList := by
    obtain ⟨a, tl, hcons, hdig⟩ := hmCore_head_digit hH
    rw [hcons]
    exact ws0_of_digit_head tl hdig
  rw [hws, hH]
  dsimp only
  rw [if_pos hv]

/-- C8 counterexample: the date string 2024-06-10 followed by a space
does not parse as %Y-%m-%d (so it does not parse as YYYY-MM-DD in the
sense of the claim and of list_events), yet create_event succeeds on it,
because strptime lets the whitespace of the combined format absorb the
extra space. -/
theorem c8_counterexample :
    parseYMD "2024-06-10 " = none ∧
    create_event stEmpty "Lunch" "2024-06-10 " "12:00" 60 "" =
      .ok (createdResult 0 "Lunch" 1064228400,
        { events := [createdEvent 0 "Lunch" 1064228400 60 ""],
          nextId := 1, todayOrd := 739047, updateCalls := 0 }) :=
  ⟨by decide, by decide⟩

/-- C8 amended: create_event validates by strptime over the combined
date-space-time string: when that parse fails the call raises the
validation error and nothing is inserted; when it succeeds the call
returns exactly the fields id, title, start and link, with start the
parsed instant, and stores an event ending duration_minutes after the
start. Whenever the date alone parses as %Y-%m-%d and the time alone as
%H:%M the combined parse succeeds with start = date midnight plus the
time; the converse direction of the original claim fails only through
the whitespace flexibility of strptime, per the counterexample. -/
theorem c8_create_event (st : CalState) (title d t : String) (dur : Int) (desc : String) :
    (dtParse (d ++ " " ++ t) = none →
      create_event st title d t dur desc =
        .error (.validationError ("time data " ++ d ++ " " ++ t
          ++ " does not match format %Y-%m-%d %H:%M"))) ∧
    (∀ s : Nat, dtParse (d ++ " " ++ t) = some s →
      create_event st title d t dur desc =
        .ok (createdResult st.nextId title (s : Int),
          { st with
            events := st.events ++ [createdEvent st.nextId title (s : Int) dur desc],
            nextId := st.nextId + 1 })) ∧
    (∀ y m dd hh mi : Nat, parseYMD d = some (y, m, dd) → parseHM t = some (hh, mi) →
      dtParse (d ++ " " ++ t) = some (toOrdinal y m dd * 1440 + hh * 60 + mi)) := by
  refine ⟨?_, ?_, ?_⟩
  · intro h
    unfold create_event
    rw [h]
  · intro s h
    unfold create_event
    rw [h]
  · intro y m dd hh mi h1 h2
    exact dtParse_append h1 h2

/-- Witness for the amended C8 at a concrete parseable input. -/
theorem c8_witness :
    create_event stEmpty "Standup" "2024-06-10" "12:00" 30 "notes" =
      .ok (createdResult stEmpty.nextId "Standup" ((1064228400 : Nat) : Int),
        { stEmpty with
          events := stEmpty.events ++
            [createdEvent stEmpty.nextId "Standup" ((1064228400 : Nat) : Int) 30 "notes"],
          nextId := stEmpty.nextId + 1 }) :=
  (c8_create_event stEmpty "Standup" "2024-06-10" "12:00" 30 "notes").2.1
    1064228400 (by decide)

end AgentCal
